import Mathlib

/-!
# MindWise backend — verification of the extraction/analysis/CRUD layer

Shallow embedding of the MindWise job-application backend (Python/FastAPI)
into Lean 4, together with proofs of the specification's claims.

Strings from the Python side are modelled as `String` (lists of characters);
character-level text processing (`str.split`, `str.strip`, joining) is
modelled on `List Char`. External effects (HTTP fetches, the Gemini call,
pdfplumber, the filesystem) are modelled as explicit oracles passed in as
function arguments, with observable effect counters (network-call count,
temporary-file flag) threaded through results.
-/

/-! ## Character-level text primitives

Models of the Python `str` operations used by the services:
`str.split('\n')`, `str.strip()` (ASCII whitespace), `'\n'.join`.
-/

/-- The ASCII characters stripped by Python's `str.strip()`. -/
def pySpace (c : Char) : Bool :=
  c = ' ' || c = '\t' || c = '\n' || c = '\r' || c = '\x0b' || c = '\x0c'

/-- Model of Python `text.split('\n')` on character lists. -/
def splitNl : List Char → List (List Char)
  | [] => [[]]
  | c :: rest =>
    let r := splitNl rest
    if c = '\n' then [] :: r
    else
      match r with
      | [] => [[c]]
      | h :: t => (c :: h) :: t

/-- Model of Python `'\n'.join(lines)` on character lists. -/
def joinNl : List (List Char) → List Char
  | [] => []
  | [x] => x
  | x :: y :: rest => x ++ '\n' :: joinNl (y :: rest)

/-- Drop trailing `pySpace` characters. -/
def dropEndSpace (cs : List Char) : List Char :=
  ((cs.reverse).dropWhile pySpace).reverse

/-- Model of Python `line.strip()` on character lists. -/
def trimChars (cs : List Char) : List Char :=
  dropEndSpace (cs.dropWhile pySpace)

/-- The `prev_line` loop of `JobExtractor._clean_text`: drop a line equal to
the previously kept line. -/
def dedupAfter (prev : List Char) : List (List Char) → List (List Char)
  | [] => []
  | x :: xs => if x = prev then dedupAfter prev xs else x :: dedupAfter x xs

/-- Remove duplicate consecutive lines (`JobExtractor._clean_text`, second
phase; `prev_line` starts as `None`, which differs from every line). -/
def dedupConsec : List (List Char) → List (List Char)
  | [] => []
  | x :: xs => x :: dedupAfter x xs

/-- The line pipeline of `JobExtractor._clean_text`: strip each line, keep
the non-empty ones, drop duplicate consecutive lines. -/
def cleanLines (ls : List (List Char)) : List (List Char) :=
  dedupConsec ((ls.map trimChars).filter (fun l => !l.isEmpty))

/-- `JobExtractor._clean_text` on character lists:
split on newlines, strip/filter/dedup the lines, re-join with newlines. -/
def cleanChars (cs : List Char) : List Char :=
  joinNl (cleanLines (splitNl cs))

/-- `JobExtractor._clean_text`. -/
def JobExtractor.clean_text (s : String) : String :=
  String.mk (cleanChars s.data)

/-! ## Resume Extractor (`services/resume_extractor.py`)

`ResumeExtractor.extract` resolves a Google Drive sharing link to a
download URL (`_get_download_url`, pure string/regex work), downloads the
PDF to a temporary file (`_download_pdf`), extracts per-page text
(`_extract_text_from_pdf`, via pdfplumber), enforces a minimum length, and
deletes the temporary file in a `finally` block.

The two network/library effects are oracles: `ResumeEnv.download` stands
for `_download_pdf` followed by pdfplumber's page iteration — it either
fails like `requests` (no temporary file is created before the response
succeeds), or yields a temporary file whose parse outcome is either a
pdfplumber failure or the list of `page.extract_text()` results
(`none` for pages with no text).
-/

/-- A character matched by the regex class `[a-zA-Z0-9_-]`. -/
def idChar (c : Char) : Bool :=
  (c.isAlpha && c.toNat < 128) || c.isDigit || c = '_' || c = '-'

/-- Match a literal at the current position, returning the rest. -/
def dropLit : List Char → List Char → Option (List Char)
  | [], cs => some cs
  | _, [] => none
  | l :: ls, c :: cs => if c = l then dropLit ls cs else none

/-- Match the prefix of `re.search(r'/file/d/([a-zA-Z0-9_-]+)', ...)` at the
current position: the literal `/file/d/`. -/
def matchFileD (cs : List Char) : Option (List Char) :=
  dropLit "/file/d/".data cs

/-- Match the prefix of `re.search(r'[?&]id=([a-zA-Z0-9_-]+)', ...)` at the
current position: one of `?`/`&` followed by the literal `id=`. -/
def matchIdParam : List Char → Option (List Char)
  | [] => none
  | c :: cs => if c = '?' || c = '&' then dropLit "id=".data cs else none

/-- `re.search` for a pattern `<prefix>([a-zA-Z0-9_-]+)`: scan left to
right; at the first position where the prefix matches and is followed by at
least one `idChar`, return the greedy capture group. -/
def reSearch (m : List Char → Option (List Char)) : List Char → Option (List Char)
  | [] =>
    match m [] with
    | some rest =>
      let grp := rest.takeWhile idChar
      if grp.isEmpty then none else some grp
    | none => none
  | c :: cs =>
    match m (c :: cs) with
    | some rest =>
      let grp := rest.takeWhile idChar
      if grp.isEmpty then reSearch m cs else some grp
    | none => reSearch m cs

/-- Errors raised by `ResumeExtractor` (all surface as `ValueError`; the
constructors record which `raise` site produced them). -/
inductive ResumeError where
  /-- "Invalid Google Drive link. Could not extract file ID." -/
  | invalidLink : ResumeError
  /-- "Failed to download resume from Google Drive: ..." -/
  | downloadFailed (msg : String) : ResumeError
  /-- "Failed to extract text from PDF: ..." -/
  | pdfParseFailed (msg : String) : ResumeError
  /-- "Extracted resume text is too short or empty" -/
  | tooShort : ResumeError
deriving Repr, DecidableEq

/-- `ResumeExtractor._get_download_url`: try the `/file/d/FILE_ID` pattern,
then the `?id=FILE_ID`/`&id=FILE_ID` pattern; build the direct download URL
or fail with the invalid-link error. -/
def ResumeExtractor.get_download_url (drive_link : String) : Except ResumeError String :=
  match reSearch matchFileD drive_link.data with
  | some fid => .ok ("https://drive.google.com/uc?export=download&id=" ++ String.mk fid)
  | none =>
    match reSearch matchIdParam drive_link.data with
    | some fid => .ok ("https://drive.google.com/uc?export=download&id=" ++ String.mk fid)
    | none => .error .invalidLink

/-- Model of Python `s.strip()` on strings. -/
def pyStrip (s : String) : String :=
  String.mk (trimChars s.data)

/-- `ResumeExtractor._extract_text_from_pdf`: keep the pages where
`page.extract_text()` returned truthy text, join with blank lines, strip. -/
def ResumeExtractor.extract_text_from_pdf (pages : List (Option String)) : String :=
  pyStrip (String.intercalate "\n\n" ((pages.filterMap id).filter (fun t => t ≠ "")))

/-- Outcome of `_download_pdf` followed by pdfplumber: either the HTTP
request failed (no temporary file was created), or the temporary file was
written and pdfplumber either failed or produced the pages' texts. -/
structure ResumeEnv where
  download : String → Except String (Except String (List (Option String)))

/-- Observable outcome of one `ResumeExtractor.extract` call: the returned
value or error, how many times the downloader was invoked (zero means no
network call at all), and whether the temporary file survives the call. -/
structure ExtractTrace where
  result : Except ResumeError String
  download_invocations : Nat
  temp_file_left : Bool
deriving Repr

/-- `ResumeExtractor.extract`. The `finally` block removes the temporary
file on every path that created one, so `temp_file_left` is set back to
`false` on each such branch before the call returns. -/
def ResumeExtractor.extract (env : ResumeEnv) (drive_link : String) : ExtractTrace :=
  match ResumeExtractor.get_download_url drive_link with
  | .error e => { result := .error e, download_invocations := 0, temp_file_left := false }
  | .ok url =>
    match env.download url with
    | .error msg =>
      { result := .error (.downloadFailed msg), download_invocations := 1, temp_file_left := false }
    | .ok pdfOutcome =>
      -- the temporary file now exists; the try/finally below always removes it
      match pdfOutcome with
      | .error msg =>
        { result := .error (.pdfParseFailed msg), download_invocations := 1, temp_file_left := false }
      | .ok pages =>
        let resume_text := ResumeExtractor.extract_text_from_pdf pages
        if resume_text = "" || (pyStrip resume_text).length < 50 then
          { result := .error .tooShort, download_invocations := 1, temp_file_left := false }
        else
          { result := .ok resume_text, download_invocations := 1, temp_file_left := false }

/-! ## JSON values and `json.loads` (`ai_agent.py`'s response handling)

`AIAgent.analyze_job_resume_match` does `json.loads(response.text.strip())`
and then validates with pydantic (`AIAnalysisResult(**result_dict)`).
`Json` models the parsed values; `json_loads` models the parser, with two
documented restrictions: numeric literals are modelled as integers only
(fractional/exponent forms are out of scope, as is floating point
generally), and `\uXXXX` string escapes are not modelled. The claims never
depend on inputs in those gaps.
-/

/-- A parsed JSON value (numbers restricted to integers, see above). -/
inductive Json where
  | null : Json
  | bool (b : Bool) : Json
  | int (n : Int) : Json
  | str (s : String) : Json
  | arr (elems : List Json) : Json
  | obj (fields : List (String × Json)) : Json
deriving Repr

/-- JSON inter-token whitespace. -/
def jsonWs (c : Char) : Bool :=
  c = ' ' || c = '\t' || c = '\n' || c = '\r'

/-- Skip JSON whitespace. -/
def skipWs (cs : List Char) : List Char :=
  cs.dropWhile jsonWs

/-- JSON string escapes (short forms; `\uXXXX` not modelled). -/
def escChar (e : Char) : Option Char :=
  if e = '"' ∨ e = '\\' ∨ e = '/' then some e
  else if e = 'n' then some '\n'
  else if e = 't' then some '\t'
  else if e = 'r' then some '\r'
  else if e = 'b' then some '\x08'
  else if e = 'f' then some '\x0c'
  else none

/-- Parse the body of a JSON string after the opening quote; return the
decoded characters and the input after the closing quote. -/
def parseStringBody : List Char → Option (List Char × List Char)
  | [] => none
  | c :: cs =>
    if c = '"' then some ([], cs)
    else if c = '\\' then
      match cs with
      | [] => none
      | e :: cs2 =>
        match escChar e, parseStringBody cs2 with
        | some r, some (s, rest) => some (r :: s, rest)
        | _, _ => none
    else
      match parseStringBody cs with
      | some (s, rest) => some (c :: s, rest)
      | none => none

/-- Numeric value of a digit run. -/
def digitsVal (ds : List Char) : Int :=
  ds.foldl (fun a c => a * 10 + (c.toNat - '0'.toNat : Int)) 0

/-- Parse a JSON integer literal: optional minus, digit run with no leading
zero; reject a following `.`/`e`/`E` (non-integer numbers unmodelled). -/
def parseIntLit (cs : List Char) : Option (Int × List Char) :=
  let core := fun (ds : List Char) (rest : List Char) (neg : Bool) =>
    if ds.isEmpty then none
    else if ds.length > 1 && ds.headD '0' = '0' then none
    else
      match rest with
      | '.' :: _ => none
      | 'e' :: _ => none
      | 'E' :: _ => none
      | _ => some (if neg then -(digitsVal ds) else digitsVal ds, rest)
  match cs with
  | '-' :: cs2 => core (cs2.takeWhile Char.isDigit) (cs2.dropWhile Char.isDigit) true
  | _ => core (cs.takeWhile Char.isDigit) (cs.dropWhile Char.isDigit) false

mutual

/-- Parse one JSON value (fuelled recursive descent). -/
def parseValue : Nat → List Char → Option (Json × List Char)
  | 0, _ => none
  | f + 1, cs0 =>
    match skipWs cs0 with
    | [] => none
    | c :: rest =>
      if c = '"' then
        match parseStringBody rest with
        | some (s, r) => some (.str (String.mk s), r)
        | none => none
      else if c = '[' then
        match skipWs rest with
        | ']' :: r => some (.arr [], r)
        | cs1 =>
          match parseElems f cs1 with
          | some (vs, r) => some (.arr vs, r)
          | none => none
      else if c = '\x7b' then
        match skipWs rest with
        | '\x7d' :: r => some (.obj [], r)
        | cs1 =>
          match parseMembers f cs1 with
          | some (ms, r) => some (.obj ms, r)
          | none => none
      else if c = 'n' then
        match dropLit "ull".data rest with
        | some r => some (.null, r)
        | none => none
      else if c = 't' then
        match dropLit "rue".data rest with
        | some r => some (.bool true, r)
        | none => none
      else if c = 'f' then
        match dropLit "alse".data rest with
        | some r => some (.bool false, r)
        | none => none
      else
        match parseIntLit (c :: rest) with
        | some (n, r) => some (.int n, r)
        | none => none

/-- Parse `value (',' value)* ']'` inside an array. -/
def parseElems : Nat → List Char → Option (List Json × List Char)
  | 0, _ => none
  | f + 1, cs =>
    match parseValue f cs with
    | none => none
    | some (v, rest) =>
      match skipWs rest with
      | ',' :: r2 =>
        match parseElems f r2 with
        | some (vs, r3) => some (v :: vs, r3)
        | none => none
      | ']' :: r2 => some ([v], r2)
      | _ => none

/-- Parse `string ':' value (',' member)* '\x7d'` inside an object. -/
def parseMembers : Nat → List Char → Option (List (String × Json) × List Char)
  | 0, _ => none
  | f + 1, cs =>
    match skipWs cs with
    | '"' :: rest =>
      match parseStringBody rest with
      | none => none
      | some (k, r1) =>
        match skipWs r1 with
        | ':' :: r2 =>
          match parseValue f r2 with
          | none => none
          | some (v, r3) =>
            match skipWs r3 with
            | ',' :: r4 =>
              match parseMembers f r4 with
              | some (ms, r5) => some ((String.mk k, v) :: ms, r5)
              | none => none
            | '\x7d' :: r4 => some ([(String.mk k, v)], r4)
            | _ => none
        | _ => none
    | _ => none

end

/-- Model of Python `json.loads`: parse one value, require only whitespace
after it; `none` is `json.JSONDecodeError`. -/
def json_loads (s : String) : Option Json :=
  match parseValue (2 * s.length + 2) s.data with
  | some (v, rest) => if (skipWs rest).isEmpty then some v else none
  | none => none

/-! ## AI analysis result schema (`schemas/job.py`, `AIAnalysisResult`) -/

/-- `AIAnalysisResult`: pydantic model with
`match_score : int = Field(..., ge=0, le=100)` and four `List[str]` fields. -/
structure AIAnalysisResult where
  job_summary : String
  required_skills : List String
  resume_skills : List String
  skill_gap : List String
  match_score : Int
  preparation_tips : List String
deriving Repr, DecidableEq

/-- Dictionary lookup on a parsed JSON object. `json.loads` builds a Python
dict, where a duplicated key keeps its last occurrence. -/
def getKey (fields : List (String × Json)) (k : String) : Option Json :=
  (fields.reverse.find? (fun p => p.1 = k)).map (fun p => p.2)

/-- pydantic validation of a `str` field. -/
def asStr : Json → Option String
  | .str s => some s
  | _ => none

/-- pydantic validation of a `List[str]` field. -/
def asStrList : Json → Option (List String)
  | .arr xs => xs.mapM asStr
  | _ => none

/-- What may follow the digit run of an accepted numeral: nothing, or a
decimal point with only zeros after it (`"90."`, `"90.00"`). -/
def restOk : List Char → Bool
  | [] => true
  | r :: zs => r = '.' && zs.all (fun c => c = '0')

/-- The digit tail of pydantic-core's lax `str → int`: a non-empty digit
run whose remainder satisfies `restOk` (`"90"`, `"090"`, `"90.00"`). -/
def pyIntDigits (u : List Char) : Option Int :=
  if (u.takeWhile Char.isDigit).isEmpty then none
  else if restOk (u.dropWhile Char.isDigit) then
    some (digitsVal (u.takeWhile Char.isDigit))
  else none

/-- One optional leading sign, then `pyIntDigits`. -/
def pyIntBody (t : List Char) : Option Int :=
  if t.headD ' ' = '-' then (pyIntDigits t.tail).map (fun n => -n)
  else if t.headD ' ' = '+' then pyIntDigits t.tail
  else pyIntDigits t

/-- Model of pydantic v2's lax string-to-int coercion (`str_as_int`):
trim surrounding whitespace, allow one sign, require decimal digits, and
allow a trailing decimal point followed only by zeros. Not modelled (and
relied on by no theorem): underscore-grouped numerals and non-ASCII
whitespace. -/
def pyIntFromStr (s : String) : Option Int :=
  pyIntBody (trimChars s.data)

/-- pydantic validation of `match_score`: an `int` field with
`ge=0, le=100`, in v2 lax mode — an integer is accepted directly, a string
is accepted when it coerces to an integer (`"90"` passes with value 90),
and booleans, null, arrays and objects are rejected for `int` fields; the
bounds are checked after coercion. -/
def asBoundedScore : Json → Option Int
  | .int n => if 0 ≤ n && n ≤ 100 then some n else none
  | .str s =>
    match pyIntFromStr s with
    | some n => if 0 ≤ n && n ≤ 100 then some n else none
    | none => none
  | _ => none

/-- pydantic construction `AIAnalysisResult(**result_dict)`: the argument
must be an object; each declared field must be present and well-typed
(extra keys are ignored, the default pydantic config). -/
def validateAnalysis : Json → Option AIAnalysisResult
  | .obj fields =>
    match getKey fields "job_summary" >>= asStr with
    | none => none
    | some js =>
      match getKey fields "required_skills" >>= asStrList with
      | none => none
      | some rq =>
        match getKey fields "resume_skills" >>= asStrList with
        | none => none
        | some rs =>
          match getKey fields "skill_gap" >>= asStrList with
          | none => none
          | some sg =>
            match getKey fields "match_score" >>= asBoundedScore with
            | none => none
            | some ms =>
              match getKey fields "preparation_tips" >>= asStrList with
              | none => none
              | some pt =>
                some { job_summary := js, required_skills := rq, resume_skills := rs,
                       skill_gap := sg, match_score := ms, preparation_tips := pt }
  | _ => none

/-! ## AI Agent (`services/ai_agent.py`) -/

/-- Failures of `AIAgent.analyze_job_resume_match` (both are raised as
`ValueError`; the constructors record which `except` branch fired). -/
inductive GeminiError where
  /-- `json.JSONDecodeError` branch: "AI returned invalid JSON". -/
  | invalidJSON : GeminiError
  /-- generic `except Exception` branch (pydantic validation failure or a
  transport failure of the remote call): "AI analysis failed: ...". -/
  | analysisFailed : GeminiError
deriving Repr, DecidableEq

/-- `AIAgent._build_analysis_prompt`: the f-string template, a function of
exactly `job_description` and `resume_text`. -/
def AIAgent.build_analysis_prompt (job_description resume_text : String) : String :=
  "\nYou are an expert ATS analyzer and career advisor.\n\nAnalyze the JOB DESCRIPTION and RESUME below and return a STRICT JSON response.\n\nJOB DESCRIPTION:\n"
  ++ job_description
  ++ "\n\nRESUME:\n"
  ++ resume_text
  ++ "\n\nReturn ONLY valid JSON in this exact schema:\n\n\x7b\n  \"job_summary\": \"2-3 sentence summary of the role\",\n  \"required_skills\": [\"skill1\", \"skill2\"],\n  \"resume_skills\": [\"skill1\", \"skill2\"],\n  \"skill_gap\": [\"missing_skill1\"],\n  \"match_score\": 0,\n  \"preparation_tips\": [\n    \"Actionable tip 1\",\n    \"Actionable tip 2\",\n    \"Actionable tip 3\",\n    \"Actionable tip 4\",\n    \"Actionable tip 5\"\n  ]\n\x7d\n\nRules:\n- JSON ONLY (no markdown, no explanation)\n- match_score must be integer between 0 and 100\n- Be concise and accurate\n- Focus on skills, gaps, and preparation\n- Preparation tips should focus on Techinical HR Interview like what are the key topics should focus (Mentioned in Job Description)\n"

/-- The response-handling tail of `analyze_job_resume_match`:
`json.loads` on the stripped response text, then pydantic validation.
`json.JSONDecodeError` raises "AI returned invalid JSON"; a pydantic
`ValidationError` falls into the generic branch ("AI analysis failed"). -/
def AIAgent.parse_response (result_text : String) : Except GeminiError AIAnalysisResult :=
  match json_loads result_text with
  | none => .error .invalidJSON
  | some v =>
    match validateAnalysis v with
    | some r => .ok r
    | none => .error .analysisFailed

/-- The remote model: a prompt either fails at transport level
(`genai` raising) or yields the raw `response.text`. -/
structure GeminiEnv where
  generate_content : String → Except String String

/-- `AIAgent.analyze_job_resume_match`: build the prompt from exactly
`job_description` and `resume_text`, call the remote model, strip and parse
its response. A transport failure lands in the generic `except` branch. -/
def AIAgent.analyze_job_resume_match (env : GeminiEnv)
    (job_description resume_text : String) : Except GeminiError AIAnalysisResult :=
  match env.generate_content (AIAgent.build_analysis_prompt job_description resume_text) with
  | .error _ => .error .analysisFailed
  | .ok raw => AIAgent.parse_response (pyStrip raw)

/-! ## Job Extractor (`services/job_extractor.py`)

`_extract_job_description` runs over a parsed, boilerplate-stripped page.
The BeautifulSoup document is abstracted as `Page`:
`select_text sel` is `soup.select_one(sel)`'s text via
`get_text(separator='\n', strip=True)` (`none` when no element matches),
`div_texts` are the texts of `soup.find_all(['div', 'section'])` in
document order, and `body_text` is the text of `soup.find('body')`.
-/

/-- The abstracted parsed page. -/
structure Page where
  select_text : String → Option String
  div_texts : List String
  body_text : Option String

/-- The ordered selector list of `_extract_job_description`. -/
def description_selectors : List String :=
  [ "[class*=\"job-description\"]",
    "[class*=\"jobDescription\"]",
    "[class*=\"job_description\"]",
    "[id*=\"job-description\"]",
    "[id*=\"jobDescription\"]",
    "[class*=\"description\"]",
    "[class*=\"job-details\"]",
    "[class*=\"jobDetails\"]",
    "[class*=\"job-content\"]",
    "[class*=\"content\"]",
    "article",
    "main",
    "[role=\"main\"]",
    ".job-desc",
    "#job-desc",
    ".description",
    "#description" ]

/-- Tier 1 loop: for each selector in order, if an element matches and its
text exceeds 100 characters, return the cleaned text; otherwise continue. -/
def trySelectors (p : Page) : List String → Option String
  | [] => none
  | sel :: rest =>
    match p.select_text sel with
    | some text =>
      if text.length > 100 then some (JobExtractor.clean_text text)
      else trySelectors p rest
    | none => trySelectors p rest

/-- Tier 2 loop: first div/section whose text length is strictly between
500 and 20000, cleaned. -/
def tryDivs : List String → Option String
  | [] => none
  | text :: rest =>
    if text.length > 500 && text.length < 20000 then some (JobExtractor.clean_text text)
    else tryDivs rest

/-- `JobExtractor._extract_job_description`: selector tier, then the
div/section scan, then the whole body; `""` when everything fails. -/
def JobExtractor.extract_job_description (p : Page) : String :=
  match trySelectors p description_selectors with
  | some d => d
  | none =>
    match tryDivs p.div_texts with
    | some d => d
    | none =>
      match p.body_text with
      | some text =>
        if text.length > 100 then JobExtractor.clean_text text else ""
      | none => ""

/-- `JobExtractor.extract` raising
`ValueError("Could not extract job description from the page")` when
`_extract_job_description` produced falsy text. -/
inductive JobExtractError where
  | extractionError : JobExtractError
deriving Repr, DecidableEq

/-- The description-extraction step of `JobExtractor.extract` on an already
fetched and parsed page (`if not job_description: raise ValueError(...)`). -/
def JobExtractor.extract_description (p : Page) : Except JobExtractError String :=
  let d := JobExtractor.extract_job_description p
  if d = "" then .error .extractionError else .ok d

/-! ## Persistence model and Jobs router (`models/job.py`, `routers/jobs.py`)

Rows of `job_applications` are `JobApplication` records; the database is
the list of rows. `created_at` is an abstract timestamp (`Nat`). SQLAlchemy
queries are modelled on lists: `filter` keeps matching rows in order,
`first()` is `List.find?`, `order_by(created_at.desc())` is a stable
descending insertion sort, `offset/limit` are `drop/take`.
-/

/-- A `job_applications` row. -/
structure JobApplication where
  id : Nat
  user_id : Nat
  company_name : String
  job_title : String
  job_description : String
  resume_drive_link : String
  user_notes : Option String
  ai_analysis : Option AIAnalysisResult
  status : String
  created_at : Nat
deriving Repr, DecidableEq

/-- Stable insertion of a row into a list sorted by `created_at`
descending: an existing row with the same timestamp stays in front. -/
def insertByCreatedDesc (j : JobApplication) : List JobApplication → List JobApplication
  | [] => [j]
  | x :: xs =>
    if x.created_at ≥ j.created_at then x :: insertByCreatedDesc j xs
    else j :: x :: xs

/-- `order_by(JobApplication.created_at.desc())` as a stable sort. -/
def sortByCreatedDesc : List JobApplication → List JobApplication
  | [] => []
  | j :: js => insertByCreatedDesc j (sortByCreatedDesc js)

/-- The user filter plus the optional status filter of `list_jobs`
(`if status:` — Python truthiness, so an empty-string status is skipped). -/
def jobsQuery (db : List JobApplication) (uid : Nat) (status : Option String) :
    List JobApplication :=
  let q := db.filter (fun j => j.user_id = uid)
  match status with
  | some s => if s = "" then q else q.filter (fun j => j.status = s)
  | none => q

/-- `JobListResponse`. -/
structure JobListResponse where
  jobs : List JobApplication
  total : Nat
  page : Nat
  page_size : Nat
deriving Repr, DecidableEq

/-- `GET /jobs/` (`list_jobs`): scope to the user, optionally filter by
status, count, order by creation time descending, apply
`offset((page - 1) * page_size).limit(page_size)`. -/
def list_jobs (db : List JobApplication) (uid : Nat) (page page_size : Nat)
    (status : Option String) : JobListResponse :=
  let query := jobsQuery db uid status
  let total := query.length
  let offset := (page - 1) * page_size
  { jobs := ((sortByCreatedDesc query).drop offset).take page_size,
    total := total, page := page, page_size := page_size }

/-- A 404 from the jobs router ("Job application not found"). -/
inductive ApiError where
  | notFound : ApiError
deriving Repr, DecidableEq

/-- The ownership-scoped lookup shared by get/update/delete:
`db.query(JobApplication).filter(id == job_id, user_id == current_user.id).first()`. -/
def findOwnedJob (db : List JobApplication) (uid jid : Nat) : Option JobApplication :=
  db.find? (fun j => j.id = jid && j.user_id = uid)

/-- `GET /jobs/{job_id}` (`get_job`). -/
def get_job (db : List JobApplication) (uid jid : Nat) :
    Except ApiError JobApplication :=
  match findOwnedJob db uid jid with
  | some j => .ok j
  | none => .error .notFound

/-- `JobUpdate`: every field optional; `none` models a field absent from
the request (`model_dump(exclude_unset=True)` drops it). For the nullable
column `user_notes` a present field carries an `Option String` value. -/
structure JobUpdate where
  company_name : Option String := none
  job_title : Option String := none
  job_description : Option String := none
  user_notes : Option (Option String) := none
  status : Option String := none
deriving Repr, DecidableEq

/-- The `setattr` loop of `update_job`: each field present in
`model_dump(exclude_unset=True)` overwrites the row's field; absent fields
are not touched. -/
def applyUpdate (j : JobApplication) (u : JobUpdate) : JobApplication :=
  { j with
    company_name := u.company_name.getD j.company_name,
    job_title := u.job_title.getD j.job_title,
    job_description := u.job_description.getD j.job_description,
    user_notes := u.user_notes.getD j.user_notes,
    status := u.status.getD j.status }

/-- Replace the first row matching `p` (the row object mutated by
`setattr` and persisted by `commit`). -/
def replaceFirst (p : JobApplication → Bool) (y : JobApplication) :
    List JobApplication → List JobApplication
  | [] => []
  | x :: xs => if p x then y :: xs else x :: replaceFirst p y xs

/-- Remove the first row matching `p` (`db.delete(job)` + `commit`). -/
def removeFirst (p : JobApplication → Bool) :
    List JobApplication → List JobApplication
  | [] => []
  | x :: xs => if p x then xs else x :: removeFirst p xs

/-- `PATCH /jobs/{job_id}` (`update_job`): 404 and no change when no owned
row matches, otherwise apply the partial update to that row. -/
def update_job (db : List JobApplication) (uid jid : Nat) (upd : JobUpdate) :
    Except ApiError JobApplication × List JobApplication :=
  match findOwnedJob db uid jid with
  | none => (.error .notFound, db)
  | some j =>
    let j2 := applyUpdate j upd
    (.ok j2, replaceFirst (fun x => x.id = jid && x.user_id = uid) j2 db)

/-- `DELETE /jobs/{job_id}` (`delete_job`): 404 and no change when no owned
row matches, otherwise remove that row. -/
def delete_job (db : List JobApplication) (uid jid : Nat) :
    Except ApiError Unit × List JobApplication :=
  match findOwnedJob db uid jid with
  | none => (.error .notFound, db)
  | some _ => (.ok (), removeFirst (fun x => x.id = jid && x.user_id = uid) db)

/-! ## AI Analysis router (`routers/ai.py`)

`analyze_job` extracts the resume text from the Drive link, runs the AI
agent on exactly `(job_description, resume_text)`, persists a new
`JobApplication` row with `status="analyzed"`, the analysis, and the
request's `user_notes`, and returns the analysis. The resume extractor and
the remote model are the oracles of `AnalyzeEnv`; the database assigns
`new_id` and `now` to the inserted row.
-/

/-- `AnalyzeJobRequest` (`routers/ai.py`): `user_notes` is optional and, by
contract, never sent to the AI. -/
structure AnalyzeJobRequest where
  company_name : String
  job_title : String
  job_description : String
  resume_drive_link : String
  user_notes : Option String := none
deriving Repr, DecidableEq

/-- `AnalyzeJobResponse`. -/
structure AnalyzeJobResponse where
  job_id : Nat
  company_name : String
  job_title : String
  analysis : AIAnalysisResult
deriving Repr, DecidableEq

/-- The two remote collaborators of the analyze endpoint. -/
structure AnalyzeEnv where
  resume : ResumeEnv
  gemini : GeminiEnv

/-- Failures surfaced by `analyze_job` (every `ValueError` becomes an
HTTP 400 with the error's message). -/
inductive AnalyzeError where
  | resumeFailed (e : ResumeError) : AnalyzeError
  | aiFailed (e : GeminiError) : AnalyzeError
deriving Repr, DecidableEq

/-- The prompt `analyze_job` sends to the remote model, when it sends one:
the resume text is extracted from the request's Drive link, and the prompt
is built from exactly `request.job_description` and that resume text. -/
def analyze_job_sent_prompt (env : AnalyzeEnv) (req : AnalyzeJobRequest) :
    Except ResumeError String :=
  match (ResumeExtractor.extract env.resume req.resume_drive_link).result with
  | .error e => .error e
  | .ok resume_text => .ok (AIAgent.build_analysis_prompt req.job_description resume_text)

/-- `POST /ai/analyze-job` (`analyze_job`): resume extraction, AI analysis
on exactly `(job_description, resume_text)`, then insertion of the new row
(`db.add` + `commit`). -/
def analyze_job (env : AnalyzeEnv) (db : List JobApplication) (uid : Nat)
    (req : AnalyzeJobRequest) (new_id now : Nat) :
    Except AnalyzeError (AnalyzeJobResponse × List JobApplication) :=
  match (ResumeExtractor.extract env.resume req.resume_drive_link).result with
  | .error e => .error (.resumeFailed e)
  | .ok resume_text =>
    match AIAgent.analyze_job_resume_match env.gemini req.job_description resume_text with
    | .error e => .error (.aiFailed e)
    | .ok analysis =>
      let job : JobApplication :=
        { id := new_id, user_id := uid,
          company_name := req.company_name, job_title := req.job_title,
          job_description := req.job_description,
          resume_drive_link := req.resume_drive_link,
          user_notes := req.user_notes,
          ai_analysis := some analysis,
          status := "analyzed", created_at := now }
      .ok ({ job_id := new_id, company_name := req.company_name,
             job_title := req.job_title, analysis := analysis },
           db ++ [job])

/-! ## Helper lemmas -/

/-- C1: the prompt sent to the analysis client is a function of
`job_description` and `resume_text` only; two analysis requests that agree
on everything except `user_notes` produce identical outbound prompts, so
`user_notes` content never reaches the outbound request. -/
theorem analyze_job_prompt_ignores_user_notes (env : AnalyzeEnv)
    (r1 r2 : AnalyzeJobRequest)
    (hcompany : r1.company_name = r2.company_name)
    (htitle : r1.job_title = r2.job_title)
    (hdesc : r1.job_description = r2.job_description)
    (hlink : r1.resume_drive_link = r2.resume_drive_link) :
    analyze_job_sent_prompt env r1 = analyze_job_sent_prompt env r2 := by
  unfold analyze_job_sent_prompt
  rw [hdesc, hlink]

/-- C1 witness: two concrete requests differing only in `user_notes`
(one carries notes, the other none) yield the same outbound prompt. -/
theorem analyze_job_prompt_ignores_user_notes_witness :
    analyze_job_sent_prompt
      ⟨⟨fun _ => .ok (.ok [some "resume text resume text resume text resume text resume"])⟩,
       ⟨fun _ => .error "unused"⟩⟩
      { company_name := "Acme", job_title := "Dev", job_description := "desc",
        resume_drive_link := "https://drive.google.com/file/d/abc/view",
        user_notes := some "Great culture, avoid Fridays" }
    = analyze_job_sent_prompt
      ⟨⟨fun _ => .ok (.ok [some "resume text resume text resume text resume text resume"])⟩,
       ⟨fun _ => .error "unused"⟩⟩
      { company_name := "Acme", job_title := "Dev", job_description := "desc",
        resume_drive_link := "https://drive.google.com/file/d/abc/view",
        user_notes := none } :=
  analyze_job_prompt_ignores_user_notes _ _ _ rfl rfl rfl rfl

/-- C3: for a link whose character data matches neither the
`/file/d/FILE_ID` pattern nor the `[?&]id=FILE_ID` pattern, `extract`
fails with the invalid-link error and never invokes the downloader. -/
theorem extract_invalid_link_no_network (link : String)
    (h1 : reSearch matchFileD link.data = none)
    (h2 : reSearch matchIdParam link.data = none) :
    ∀ env : ResumeEnv,
      (ResumeExtractor.extract env link).result = .error .invalidLink ∧
      (ResumeExtractor.extract env link).download_invocations = 0 := by
  intro env
  have hurl : ResumeExtractor.get_download_url link = .error .invalidLink := by
    unfold ResumeExtractor.get_download_url
    rw [h1, h2]
  unfold ResumeExtractor.extract
  rw [hurl]
  exact ⟨rfl, rfl⟩

/-- C3 witness: a concrete link with no recoverable file identifier. -/
theorem extract_invalid_link_no_network_witness :
    (ResumeExtractor.extract ⟨fun _ => .error "unused"⟩ "https://example.com/nothing").result
        = .error .invalidLink ∧
    (ResumeExtractor.extract ⟨fun _ => .error "unused"⟩
        "https://example.com/nothing").download_invocations = 0 :=
  extract_invalid_link_no_network "https://example.com/nothing" rfl rfl _

/-- C4: the temporary file never survives a call to
`ResumeExtractor.extract` (any exit path), and whenever download and PDF
parsing succeed but the stripped text is under 50 characters, the call
fails with the too-short extraction error. -/
theorem extract_removes_temp_and_rejects_short :
    (∀ (env : ResumeEnv) (link : String),
        (ResumeExtractor.extract env link).temp_file_left = false) ∧
    (∀ (env : ResumeEnv) (link url : String) (pages : List (Option String)),
        ResumeExtractor.get_download_url link = .ok url →
        env.download url = .ok (.ok pages) →
        (pyStrip (ResumeExtractor.extract_text_from_pdf pages)).length < 50 →
        (ResumeExtractor.extract env link).result = .error .tooShort) := by
  constructor
  · intro env link
    unfold ResumeExtractor.extract
    split
    · rfl
    · split
      · rfl
      · split
        · rfl
        · dsimp only
          split
          · rfl
          · rfl
  · intro env link url pages hurl hdl hshort
    have hc : (ResumeExtractor.extract_text_from_pdf pages = ""
        || (pyStrip (ResumeExtractor.extract_text_from_pdf pages)).length < 50 : Bool) = true := by
      simp [hshort]
    simp only [ResumeExtractor.extract, hurl, hdl, hc, if_true]

/-- C4 witness: a PDF with one short page; the call errors out as too
short and leaves no temporary file behind. -/
theorem extract_removes_temp_and_rejects_short_witness :
    (ResumeExtractor.extract ⟨fun _ => .ok (.ok [some "short resume"])⟩
        "https://drive.google.com/file/d/abc/view").result = .error .tooShort ∧
    (ResumeExtractor.extract ⟨fun _ => .ok (.ok [some "short resume"])⟩
        "https://drive.google.com/file/d/abc/view").temp_file_left = false :=
  ⟨extract_removes_temp_and_rejects_short.2 _ _
      "https://drive.google.com/uc?export=download&id=abc" [some "short resume"]
      rfl rfl (by decide),
   extract_removes_temp_and_rejects_short.1 _ _⟩

/-- C10: after a successful analyze-job call, the store gains exactly one
row, and that row carries `status = "analyzed"`, `ai_analysis = some a`
where `a` is the analysis returned to the caller (the response's
`analysis` field), and `user_notes` equal to the request's value
(`none` when absent). -/
theorem analyze_job_persists_analysis (env : AnalyzeEnv) (db : List JobApplication)
    (uid : Nat) (req : AnalyzeJobRequest) (new_id now : Nat) (rt : String)
    (a : AIAnalysisResult)
    (hres : (ResumeExtractor.extract env.resume req.resume_drive_link).result = .ok rt)
    (hai : AIAgent.analyze_job_resume_match env.gemini req.job_description rt = .ok a) :
    analyze_job env db uid req new_id now =
      .ok ({ job_id := new_id, company_name := req.company_name,
             job_title := req.job_title, analysis := a },
           db ++ [{ id := new_id, user_id := uid,
                    company_name := req.company_name, job_title := req.job_title,
                    job_description := req.job_description,
                    resume_drive_link := req.resume_drive_link,
                    user_notes := req.user_notes, ai_analysis := some a,
                    status := "analyzed", created_at := now }]) := by
  simp only [analyze_job, hres, hai]

set_option maxRecDepth 10000 in
/-- C10 witness: a concrete successful call — extraction yields a
long-enough resume, the model returns a valid result object, and the
persisted row records the analysis, the "analyzed" status, and the
request's notes. -/
theorem analyze_job_persists_analysis_witness :
    analyze_job
      ⟨⟨fun _ => .ok (.ok [some "This resume text is definitely longer than fifty characters in total."])⟩,
       ⟨fun _ => .ok "\x7b\"job_summary\": \"s\", \"required_skills\": [], \"resume_skills\": [\"a\"], \"skill_gap\": [], \"match_score\": 50, \"preparation_tips\": []\x7d"⟩⟩
      [] 7
      { company_name := "Acme", job_title := "Dev", job_description := "desc",
        resume_drive_link := "https://drive.google.com/file/d/abc/view",
        user_notes := some "Great culture, avoid Fridays" }
      1 100 =
    .ok ({ job_id := 1, company_name := "Acme", job_title := "Dev",
           analysis := ⟨"s", [], ["a"], [], 50, []⟩ },
         [] ++ [{ id := 1, user_id := 7, company_name := "Acme", job_title := "Dev",
                  job_description := "desc",
                  resume_drive_link := "https://drive.google.com/file/d/abc/view",
                  user_notes := some "Great culture, avoid Fridays",
                  ai_analysis := some ⟨"s", [], ["a"], [], 50, []⟩,
                  status := "analyzed", created_at := 100 }]) :=
  analyze_job_persists_analysis _ [] 7 _ 1 100
    "This resume text is definitely longer than fifty characters in total."
    ⟨"s", [], ["a"], [], 50, []⟩ rfl rfl

/-! ## Text-cleaning lemmas (towards C9) -/

/-- `dropEndSpace` is Mathlib's `rdropWhile`. -/
theorem dropEndSpace_eq_rdropWhile (cs : List Char) :
    dropEndSpace cs = List.rdropWhile pySpace cs := rfl

/-- The head of a non-empty `dropWhile` result fails the predicate. -/
theorem dropWhile_head_false {α : Type} (p : α → Bool) :
    ∀ (l : List α) (c : α) (t : List α), l.dropWhile p = c :: t → p c = false := by
  intro l
  induction l with
  | nil => intro c t h; simp [List.dropWhile] at h
  | cons a l ih =>
    intro c t h
    rw [List.dropWhile_cons] at h
    by_cases hpa : p a
    · rw [if_pos hpa] at h
      exact ih c t h
    · rw [if_neg hpa] at h
      cases h
      exact Bool.of_not_eq_true hpa

/-- Stripping the right end of an already left-stripped list leaves a list
that is still left-stripped. -/
theorem dropWhile_rdropWhile_self (m : List Char)
    (hm : m.dropWhile pySpace = m) :
    (List.rdropWhile pySpace m).dropWhile pySpace = List.rdropWhile pySpace m := by
  cases hcase : List.rdropWhile pySpace m with
  | nil => rfl
  | cons c t =>
    obtain ⟨s, hs⟩ := List.rdropWhile_prefix (p := pySpace) (l := m)
    rw [hcase] at hs
    have hmc : m = c :: (t ++ s) := by rw [← hs]; simp
    have hpc : pySpace c = false := by
      apply dropWhile_head_false pySpace m c (t ++ s)
      rw [hm, hmc]
    rw [List.dropWhile_cons, hpc]
    simp

/-- Python's `strip` is idempotent. -/
theorem trimChars_trimChars (l : List Char) :
    trimChars (trimChars l) = trimChars l := by
  show dropEndSpace ((dropEndSpace (l.dropWhile pySpace)).dropWhile pySpace)
      = dropEndSpace (l.dropWhile pySpace)
  rw [dropEndSpace_eq_rdropWhile, dropEndSpace_eq_rdropWhile,
    dropWhile_rdropWhile_self (l.dropWhile pySpace) (List.dropWhile_idempotent pySpace l),
    List.rdropWhile_idempotent]

/-- Stripping only removes characters. -/
theorem mem_of_mem_trimChars {c : Char} {l : List Char}
    (h : c ∈ trimChars l) : c ∈ l := by
  have h1 : trimChars l ⊆ List.dropWhile pySpace l := by
    rw [show trimChars l = List.rdropWhile pySpace (l.dropWhile pySpace) from rfl]
    exact (List.rdropWhile_prefix _ _).sublist.subset
  exact (List.dropWhile_suffix pySpace).sublist.subset (h1 h)

/-- `splitNl` never returns an empty list of lines. -/
theorem splitNl_ne_nil (cs : List Char) : splitNl cs ≠ [] := by
  induction cs with
  | nil => simp [splitNl]
  | cons c rest ih =>
    simp only [splitNl]
    by_cases hc : c = '\n'
    · simp [hc]
    · simp only [hc, if_false]
      cases splitNl rest with
      | nil => simp
      | cons h t => simp

/-- Lines produced by `splitNl` contain no newline character. -/
theorem mem_splitNl_no_newline :
    ∀ (cs : List Char) (l : List Char), l ∈ splitNl cs → '\n' ∉ l := by
  intro cs
  induction cs with
  | nil =>
    intro l hl
    simp only [splitNl, List.mem_singleton] at hl
    simp [hl]
  | cons c rest ih =>
    intro l hl
    simp only [splitNl] at hl
    by_cases hc : c = '\n'
    · rw [if_pos hc] at hl
      rcases List.mem_cons.mp hl with h | h
      · simp [h]
      · exact ih l h
    · rw [if_neg hc] at hl
      cases hsplit : splitNl rest with
      | nil => exact absurd hsplit (splitNl_ne_nil rest)
      | cons h t =>
        rw [hsplit] at hl
        rcases List.mem_cons.mp hl with he | he
        · subst he
          intro hmem
          rcases List.mem_cons.mp hmem with h1 | h1
          · exact hc h1.symm
          · exact ih h (by rw [hsplit]; exact List.mem_cons_self h t) h1
        · exact ih l (by rw [hsplit]; exact List.mem_cons_of_mem h he)

/-- A newline-free list splits to itself. -/
theorem splitNl_no_newline (l : List Char) (h : '\n' ∉ l) : splitNl l = [l] := by
  induction l with
  | nil => rfl
  | cons c rest ih =>
    have hc : c ≠ '\n' := fun he => h (he ▸ List.mem_cons_self c rest)
    have hrest : '\n' ∉ rest := fun hm => h (List.mem_cons_of_mem c hm)
    simp only [splitNl, hc, if_false]
    rw [ih hrest]

/-- Splitting after a newline-free prefix. -/
theorem splitNl_append (x : List Char) (hx : '\n' ∉ x) :
    ∀ (cs : List Char) (h : List Char) (t : List (List Char)), splitNl cs = h :: t →
      splitNl (x ++ cs) = (x ++ h) :: t := by
  induction x with
  | nil => intro cs h t hcs; simpa using hcs
  | cons c xrest ih =>
    intro cs h t hcs
    have hc : c ≠ '\n' := fun he => hx (he ▸ List.mem_cons_self c xrest)
    have hxrest : '\n' ∉ xrest := fun hm => hx (List.mem_cons_of_mem c hm)
    have hrec := ih hxrest cs h t hcs
    simp only [List.cons_append, splitNl, hc, if_false]
    rw [List.append_eq, hrec]

/-- `splitNl` inverts `joinNl` on non-empty lists of newline-free lines. -/
theorem splitNl_joinNl :
    ∀ L : List (List Char), L ≠ [] → (∀ l ∈ L, '\n' ∉ l) →
      splitNl (joinNl L) = L := by
  intro L
  induction L with
  | nil => intro h; exact absurd rfl h
  | cons x rest ih =>
    intro _ hnl
    cases rest with
    | nil =>
      show splitNl (joinNl [x]) = [x]
      exact splitNl_no_newline x (hnl x (List.mem_cons_self x []))
    | cons y t =>
      have hx : '\n' ∉ x := hnl x (List.mem_cons_self x (y :: t))
      have hrec : splitNl (joinNl (y :: t)) = y :: t := by
        apply ih (by simp)
        intro l hl
        exact hnl l (List.mem_cons_of_mem x hl)
      have hstep : splitNl ('\n' :: joinNl (y :: t)) = [] :: y :: t := by
        simp [splitNl, hrec]
      have hall := splitNl_append x hx ('\n' :: joinNl (y :: t)) [] (y :: t) hstep
      show splitNl (x ++ '\n' :: joinNl (y :: t)) = x :: y :: t
      simpa using hall

/-- Deduplicated lines all come from the input. -/
theorem mem_dedupAfter :
    ∀ (xs : List (List Char)) (prev l : List Char),
      l ∈ dedupAfter prev xs → l ∈ xs := by
  intro xs
  induction xs with
  | nil => intro prev l h; simp [dedupAfter] at h
  | cons x rest ih =>
    intro prev l h
    simp only [dedupAfter] at h
    by_cases hx : x = prev
    · rw [if_pos hx] at h
      exact List.mem_cons_of_mem x (ih prev l h)
    · rw [if_neg hx] at h
      rcases List.mem_cons.mp h with he | he
      · exact he ▸ List.mem_cons_self x rest
      · exact List.mem_cons_of_mem x (ih x l he)

/-- `dedupAfter prev` output, with `prev` in front, has no equal
neighbours. -/
theorem chain_dedupAfter :
    ∀ (xs : List (List Char)) (prev : List Char),
      List.Chain' (fun a b => a ≠ b) (prev :: dedupAfter prev xs) := by
  intro xs
  induction xs with
  | nil => intro prev; simp [dedupAfter]
  | cons x rest ih =>
    intro prev
    simp only [dedupAfter]
    by_cases hx : x = prev
    · rw [if_pos hx]
      exact ih prev
    · rw [if_neg hx]
      exact List.chain'_cons.mpr ⟨fun he => hx he.symm, ih x⟩

/-- `dedupAfter` does nothing on a list already free of equal
neighbours. -/
theorem dedupAfter_eq_self :
    ∀ (xs : List (List Char)) (prev : List Char),
      List.Chain' (fun a b => a ≠ b) (prev :: xs) → dedupAfter prev xs = xs := by
  intro xs
  induction xs with
  | nil => intro prev _; rfl
  | cons x rest ih =>
    intro prev hch
    rcases List.chain'_cons.mp hch with ⟨hne, hch2⟩
    have hxp : ¬(x = prev) := fun he => hne (Eq.symm he)
    simp only [dedupAfter, if_neg hxp]
    rw [ih x hch2]

/-- `dedupConsec` output has no equal neighbours. -/
theorem chain_dedupConsec (L : List (List Char)) :
    List.Chain' (fun a b => a ≠ b) (dedupConsec L) := by
  cases L with
  | nil => simp [dedupConsec]
  | cons x xs => exact chain_dedupAfter xs x

/-- `dedupConsec` fixes lists with no equal neighbours. -/
theorem dedupConsec_eq_self (L : List (List Char))
    (h : List.Chain' (fun a b => a ≠ b) L) : dedupConsec L = L := by
  cases L with
  | nil => rfl
  | cons x xs =>
    show x :: dedupAfter x xs = x :: xs
    rw [dedupAfter_eq_self xs x h]

/-- `dedupConsec` output lines all come from the input. -/
theorem mem_dedupConsec {L : List (List Char)} {l : List Char}
    (h : l ∈ dedupConsec L) : l ∈ L := by
  cases L with
  | nil => simp [dedupConsec] at h
  | cons x xs =>
    rcases List.mem_cons.mp h with he | he
    · exact he ▸ List.mem_cons_self x xs
    · exact List.mem_cons_of_mem x (mem_dedupAfter xs x l he)

/-- Mapping a function that fixes every element fixes the list. -/
theorem map_eq_self_of_fixed {α : Type} (f : α → α) :
    ∀ l : List α, (∀ a ∈ l, f a = a) → l.map f = l := by
  intro l
  induction l with
  | nil => intro _; rfl
  | cons a rest ih =>
    intro h
    simp only [List.map_cons]
    rw [h a (List.mem_cons_self a rest), ih (fun b hb => h b (List.mem_cons_of_mem a hb))]

/-- Every line kept by `cleanLines` is stripped and non-empty. -/
theorem mem_cleanLines {X : List (List Char)} {l : List Char}
    (h : l ∈ cleanLines X) : trimChars l = l ∧ l ≠ [] := by
  have h1 : l ∈ (X.map trimChars).filter (fun l => !l.isEmpty) := mem_dedupConsec h
  have h2 := List.of_mem_filter h1
  have h3 := List.mem_of_mem_filter h1
  rcases List.mem_map.mp h3 with ⟨y, _, hy⟩
  constructor
  · rw [← hy]; exact trimChars_trimChars y
  · intro hnil
    rw [hnil] at h2
    simp at h2

/-- Every line kept by `cleanLines` comes from stripping an input line. -/
theorem mem_cleanLines_from {X : List (List Char)} {l : List Char}
    (h : l ∈ cleanLines X) : ∃ y ∈ X, trimChars y = l := by
  have h1 : l ∈ (X.map trimChars).filter (fun l => !l.isEmpty) := mem_dedupConsec h
  have h3 := List.mem_of_mem_filter h1
  exact List.mem_map.mp h3

/-- `cleanLines` fixes its own output. -/
theorem cleanLines_cleanLines (X : List (List Char)) :
    cleanLines (cleanLines X) = cleanLines X := by
  show dedupConsec (((cleanLines X).map trimChars).filter (fun l => !l.isEmpty))
      = cleanLines X
  rw [map_eq_self_of_fixed trimChars (cleanLines X)
      (fun a ha => (mem_cleanLines ha).1)]
  rw [List.filter_eq_self.mpr
      (fun a ha => by simpa using (mem_cleanLines ha).2)]
  exact dedupConsec_eq_self (cleanLines X) (chain_dedupConsec _)

/-- `cleanChars` is idempotent. -/
theorem cleanChars_cleanChars (cs : List Char) :
    cleanChars (cleanChars cs) = cleanChars cs := by
  show joinNl (cleanLines (splitNl (joinNl (cleanLines (splitNl cs)))))
      = joinNl (cleanLines (splitNl cs))
  cases hL : cleanLines (splitNl cs) with
  | nil => rfl
  | cons x xs =>
    have hnl : ∀ l ∈ x :: xs, '\n' ∉ l := by
      intro l hl hmem
      rw [← hL] at hl
      rcases mem_cleanLines_from hl with ⟨y, hy, hyl⟩
      exact mem_splitNl_no_newline cs y hy (mem_of_mem_trimChars (by rw [hyl]; exact hmem))
    rw [splitNl_joinNl (x :: xs) (by simp) hnl, ← hL, cleanLines_cleanLines, hL]

/-- C9: `_clean_text` is idempotent, and its output has no blank lines
and no two identical consecutive lines (stated on the split lines of the
output; an empty output has no lines at all). -/
theorem clean_text_idempotent_normalized (s : String) :
    JobExtractor.clean_text (JobExtractor.clean_text s) = JobExtractor.clean_text s ∧
    ((JobExtractor.clean_text s).data = [] ∨
      ((∀ l ∈ splitNl (JobExtractor.clean_text s).data, l ≠ []) ∧
        List.Chain' (fun a b => a ≠ b) (splitNl (JobExtractor.clean_text s).data))) := by
  constructor
  · exact congrArg String.mk (cleanChars_cleanChars s.data)
  · show cleanChars s.data = [] ∨
      ((∀ l ∈ splitNl (cleanChars s.data), l ≠ []) ∧
        List.Chain' (fun a b => a ≠ b) (splitNl (cleanChars s.data)))
    cases hL : cleanLines (splitNl s.data) with
    | nil =>
      left
      show joinNl (cleanLines (splitNl s.data)) = []
      rw [hL]
      rfl
    | cons x xs =>
      right
      have hnl : ∀ l ∈ x :: xs, '\n' ∉ l := by
        intro l hl hmem
        rw [← hL] at hl
        rcases mem_cleanLines_from hl with ⟨y, hy, hyl⟩
        exact mem_splitNl_no_newline s.data y hy
          (mem_of_mem_trimChars (by rw [hyl]; exact hmem))
      have hsplit : splitNl (cleanChars s.data) = x :: xs := by
        show splitNl (joinNl (cleanLines (splitNl s.data))) = x :: xs
        rw [hL]
        exact splitNl_joinNl (x :: xs) (by simp) hnl
      constructor
      · intro l hl
        rw [hsplit] at hl
        have hmem : l ∈ cleanLines (splitNl s.data) := by rw [hL]; exact hl
        exact (mem_cleanLines hmem).2
      · rw [hsplit]
        have hch : List.Chain' (fun a b => a ≠ b) (cleanLines (splitNl s.data)) :=
          chain_dedupConsec _
        rw [hL] at hch
        exact hch

/-- C9 witness: idempotence at a concrete string with surrounding blanks
and a repeated line. -/
theorem clean_text_idempotent_normalized_witness :
    JobExtractor.clean_text (JobExtractor.clean_text " c \n\nc\nc\nd\n")
        = JobExtractor.clean_text " c \n\nc\nc\nd\n" :=
  (clean_text_idempotent_normalized " c \n\nc\nc\nd\n").1

/-! ## Sorting and query lemmas (towards C6/C7/C8) -/

/-- Inserting adds one element. -/
theorem length_insertByCreatedDesc (j : JobApplication) :
    ∀ l : List JobApplication, (insertByCreatedDesc j l).length = l.length + 1 := by
  intro l
  induction l with
  | nil => rfl
  | cons x xs ih =>
    simp only [insertByCreatedDesc]
    by_cases hc : x.created_at ≥ j.created_at
    · rw [if_pos hc]
      simp [ih]
    · rw [if_neg hc]
      simp

/-- Insertion-sort membership. -/
theorem mem_insertByCreatedDesc {a j : JobApplication} :
    ∀ {l : List JobApplication}, a ∈ insertByCreatedDesc j l ↔ (a = j ∨ a ∈ l) := by
  intro l
  induction l with
  | nil => simp [insertByCreatedDesc]
  | cons x xs ih =>
    simp only [insertByCreatedDesc]
    by_cases hc : x.created_at ≥ j.created_at
    · rw [if_pos hc]
      simp only [List.mem_cons, ih]
      tauto
    · rw [if_neg hc]
      simp only [List.mem_cons]

/-- The sort preserves length. -/
theorem length_sortByCreatedDesc :
    ∀ l : List JobApplication, (sortByCreatedDesc l).length = l.length := by
  intro l
  induction l with
  | nil => rfl
  | cons x xs ih =>
    show (insertByCreatedDesc x (sortByCreatedDesc xs)).length = xs.length + 1
    rw [length_insertByCreatedDesc, ih]

/-- The sort preserves membership. -/
theorem mem_sortByCreatedDesc {a : JobApplication} :
    ∀ {l : List JobApplication}, a ∈ sortByCreatedDesc l ↔ a ∈ l := by
  intro l
  induction l with
  | nil => simp [sortByCreatedDesc]
  | cons x xs ih =>
    show a ∈ insertByCreatedDesc x (sortByCreatedDesc xs) ↔ _
    rw [mem_insertByCreatedDesc]
    simp only [List.mem_cons, ih]

/-- Insertion preserves descending order by `created_at`. -/
theorem pairwise_insertByCreatedDesc (j : JobApplication) :
    ∀ l : List JobApplication,
      l.Pairwise (fun a b => b.created_at ≤ a.created_at) →
      (insertByCreatedDesc j l).Pairwise (fun a b => b.created_at ≤ a.created_at) := by
  intro l
  induction l with
  | nil => intro _; simp [insertByCreatedDesc]
  | cons x xs ih =>
    intro hp
    rcases List.pairwise_cons.mp hp with ⟨hx, hxs⟩
    simp only [insertByCreatedDesc]
    by_cases hc : x.created_at ≥ j.created_at
    · rw [if_pos hc]
      apply List.pairwise_cons.mpr
      constructor
      · intro b hb
        rcases mem_insertByCreatedDesc.mp hb with he | he
        · exact he ▸ hc
        · exact hx b he
      · exact ih hxs
    · rw [if_neg hc]
      apply List.pairwise_cons.mpr
      constructor
      · intro b hb
        rcases List.mem_cons.mp hb with he | he
        · subst he
          omega
        · have := hx b he
          omega
      · exact hp

/-- The sort output is descending by `created_at`. -/
theorem pairwise_sortByCreatedDesc :
    ∀ l : List JobApplication,
      (sortByCreatedDesc l).Pairwise (fun a b => b.created_at ≤ a.created_at) := by
  intro l
  induction l with
  | nil => simp [sortByCreatedDesc]
  | cons x xs ih => exact pairwise_insertByCreatedDesc x (sortByCreatedDesc xs) ih

/-- Every row returned by `jobsQuery` belongs to the requested user. -/
theorem mem_jobsQuery_user {db : List JobApplication} {uid : Nat}
    {status : Option String} {j : JobApplication}
    (h : j ∈ jobsQuery db uid status) : j.user_id = uid := by
  unfold jobsQuery at h
  have huser : j ∈ db.filter (fun j => j.user_id = uid) := by
    cases status with
    | none => exact h
    | some s =>
      dsimp only at h
      by_cases hs : s = ""
      · rw [if_pos hs] at h
        exact h
      · rw [if_neg hs] at h
        exact List.mem_of_mem_filter h
  have := List.of_mem_filter huser
  simpa using this

/-- Every row in a `list_jobs` page comes from the user's filtered query. -/
theorem mem_list_jobs_query {db : List JobApplication} {uid page ps : Nat}
    {status : Option String} {j : JobApplication}
    (h : j ∈ (list_jobs db uid page ps status).jobs) :
    j ∈ jobsQuery db uid status := by
  have h1 : j ∈ (sortByCreatedDesc (jobsQuery db uid status)).drop ((page - 1) * ps) :=
    (List.take_sublist _ _).subset h
  have h2 : j ∈ sortByCreatedDesc (jobsQuery db uid status) :=
    (List.drop_sublist _ _).subset h1
  exact mem_sortByCreatedDesc.mp h2

/-- C6: `list_jobs` reports the full filtered count as `total`, returns the
page `offset = (page-1)*page_size, limit = page_size` of the user's jobs in
descending creation order (so `min page_size (total - offset)` items, all
owned by the user); in particular 15 user jobs with `page=2, page_size=10`
yield exactly 5 items and `total = 15`. -/
theorem list_jobs_pagination (db : List JobApplication) (uid page ps : Nat)
    (status : Option String) :
    (list_jobs db uid page ps status).total = (jobsQuery db uid status).length ∧
    (list_jobs db uid page ps status).jobs
        = ((sortByCreatedDesc (jobsQuery db uid status)).drop ((page - 1) * ps)).take ps ∧
    (list_jobs db uid page ps status).jobs.length
        = min ps ((jobsQuery db uid status).length - (page - 1) * ps) ∧
    (∀ j ∈ (list_jobs db uid page ps status).jobs, j.user_id = uid) ∧
    (list_jobs db uid page ps status).jobs.Pairwise
        (fun a b => b.created_at ≤ a.created_at) ∧
    ((jobsQuery db uid status).length = 15 → page = 2 → ps = 10 →
      (list_jobs db uid page ps status).jobs.length = 5 ∧
        (list_jobs db uid page ps status).total = 15) := by
  refine ⟨rfl, rfl, ?_, ?_, ?_, ?_⟩
  · show (((sortByCreatedDesc (jobsQuery db uid status)).drop ((page - 1) * ps)).take ps).length
        = min ps ((jobsQuery db uid status).length - (page - 1) * ps)
    rw [List.length_take, List.length_drop, length_sortByCreatedDesc]
  · intro j hj
    exact mem_jobsQuery_user (mem_list_jobs_query hj)
  · exact List.Pairwise.sublist
      ((List.take_sublist _ _).trans (List.drop_sublist _ _))
      (pairwise_sortByCreatedDesc _)
  · intro h15 hpage hps
    subst hpage hps
    constructor
    · show (((sortByCreatedDesc (jobsQuery db uid status)).drop ((2 - 1) * 10)).take 10).length = 5
      rw [List.length_take, List.length_drop, length_sortByCreatedDesc, h15]
      omega
    · show (jobsQuery db uid status).length = 15
      exact h15

/-- C6 witness: a store of exactly 15 jobs for user 1; page 2 of size 10
returns 5 items with total 15. -/
theorem list_jobs_pagination_witness :
    (list_jobs ((List.range 15).map (fun i =>
        { id := i, user_id := 1, company_name := "c", job_title := "t",
          job_description := "d", resume_drive_link := "l", user_notes := none,
          ai_analysis := none, status := "pending", created_at := i }))
        1 2 10 none).jobs.length = 5 ∧
    (list_jobs ((List.range 15).map (fun i =>
        { id := i, user_id := 1, company_name := "c", job_title := "t",
          job_description := "d", resume_drive_link := "l", user_notes := none,
          ai_analysis := none, status := "pending", created_at := i }))
        1 2 10 none).total = 15 :=
  (list_jobs_pagination _ 1 2 10 none).2.2.2.2.2 (by rfl) rfl rfl

/-- With unique row ids, the ownership-scoped lookup finds nothing when
the row carrying the id belongs to someone else. -/
theorem findOwnedJob_none_of_other_owner (db : List JobApplication) (u jid : Nat)
    (j : JobApplication) (hmem : j ∈ db) (hid : j.id = jid) (hown : j.user_id ≠ u)
    (hnodup : (db.map JobApplication.id).Nodup) :
    findOwnedJob db u jid = none := by
  cases hf : findOwnedJob db u jid with
  | none => rfl
  | some x =>
    have hpx := List.find?_some hf
    have hxmem := List.mem_of_find?_eq_some hf
    simp only [Bool.and_eq_true, decide_eq_true_eq] at hpx
    obtain ⟨hxid, hxu⟩ := hpx
    have hxe : x = j :=
      List.inj_on_of_nodup_map hnodup hxmem hmem (by rw [hxid, hid])
    rw [hxe] at hxu
    exact absurd hxu hown

/-- With unique row ids, the ownership-scoped lookup returns exactly the
owner's row. -/
theorem findOwnedJob_some_of_owner (db : List JobApplication) (u jid : Nat)
    (j : JobApplication) (hmem : j ∈ db) (hid : j.id = jid) (hown : j.user_id = u)
    (hnodup : (db.map JobApplication.id).Nodup) :
    findOwnedJob db u jid = some j := by
  cases hf : findOwnedJob db u jid with
  | none =>
    have := List.find?_eq_none.mp hf j hmem
    simp only [Bool.and_eq_true, decide_eq_true_eq, not_and] at this
    exact absurd hown (this hid)
  | some x =>
    have hpx := List.find?_some hf
    have hxmem := List.mem_of_find?_eq_some hf
    simp only [Bool.and_eq_true, decide_eq_true_eq] at hpx
    obtain ⟨hxid, _⟩ := hpx
    rw [List.inj_on_of_nodup_map hnodup hxmem hmem (by rw [hxid, hid])]

/-- C7: a job application owned by someone else is invisible to the
requesting user: get, update and delete by its id all return the 404
error, update and delete leave the store unchanged, and the job never
appears in any page of the user's listing. -/
theorem jobs_invisible_to_non_owner (db : List JobApplication) (u jid : Nat)
    (j : JobApplication) (hmem : j ∈ db) (hid : j.id = jid)
    (hown : j.user_id ≠ u) (hnodup : (db.map JobApplication.id).Nodup) :
    get_job db u jid = .error .notFound ∧
    (∀ upd : JobUpdate, update_job db u jid upd = (.error .notFound, db)) ∧
    delete_job db u jid = (.error .notFound, db) ∧
    (∀ (page ps : Nat) (status : Option String),
      j ∉ (list_jobs db u page ps status).jobs) := by
  have hf := findOwnedJob_none_of_other_owner db u jid j hmem hid hown hnodup
  refine ⟨?_, ?_, ?_, ?_⟩
  · unfold get_job
    rw [hf]
  · intro upd
    unfold update_job
    rw [hf]
  · unfold delete_job
    rw [hf]
  · intro page ps status hmem2
    exact hown (mem_jobsQuery_user (mem_list_jobs_query hmem2))

/-- A two-user store for the C7 witness. -/
def otherUsersJob : JobApplication :=
  { id := 1, user_id := 1, company_name := "A", job_title := "t",
    job_description := "d", resume_drive_link := "l", user_notes := none,
    ai_analysis := none, status := "pending", created_at := 0 }

/-- The requesting user's own job for the C7 witness. -/
def requestersJob : JobApplication :=
  { id := 2, user_id := 2, company_name := "B", job_title := "t",
    job_description := "d", resume_drive_link := "l", user_notes := none,
    ai_analysis := none, status := "pending", created_at := 1 }

/-- C7 witness: user 2 cannot see, update or delete user 1's job, and it
is absent from user 2's first listing page. -/
theorem jobs_invisible_to_non_owner_witness :
    get_job [otherUsersJob, requestersJob] 2 1 = .error .notFound ∧
    update_job [otherUsersJob, requestersJob] 2 1 { status := some "applied" }
        = (.error .notFound, [otherUsersJob, requestersJob]) ∧
    delete_job [otherUsersJob, requestersJob] 2 1
        = (.error .notFound, [otherUsersJob, requestersJob]) ∧
    otherUsersJob ∉ (list_jobs [otherUsersJob, requestersJob] 2 1 10 none).jobs :=
  ⟨(jobs_invisible_to_non_owner [otherUsersJob, requestersJob] 2 1 otherUsersJob
      (by simp) rfl (by decide) (by decide)).1,
   (jobs_invisible_to_non_owner [otherUsersJob, requestersJob] 2 1 otherUsersJob
      (by simp) rfl (by decide) (by decide)).2.1 _,
   (jobs_invisible_to_non_owner [otherUsersJob, requestersJob] 2 1 otherUsersJob
      (by simp) rfl (by decide) (by decide)).2.2.1,
   (jobs_invisible_to_non_owner [otherUsersJob, requestersJob] 2 1 otherUsersJob
      (by simp) rfl (by decide) (by decide)).2.2.2 1 10 none⟩

/-- If some row matches, the replacement row is in the updated store. -/
theorem mem_replaceFirst (p : JobApplication → Bool) (y : JobApplication) :
    ∀ l : List JobApplication, (∃ x ∈ l, p x = true) → y ∈ replaceFirst p y l := by
  intro l
  induction l with
  | nil =>
    rintro ⟨x, hx, _⟩
    exact absurd hx (List.not_mem_nil x)
  | cons a rest ih =>
    rintro ⟨x, hx, hpx⟩
    simp only [replaceFirst]
    by_cases hpa : p a
    · rw [if_pos hpa]
      exact List.mem_cons_self y _
    · rw [if_neg hpa]
      apply List.mem_cons_of_mem
      apply ih
      refine ⟨x, ?_, hpx⟩
      rcases List.mem_cons.mp hx with he | he
      · rw [he] at hpx
        exact absurd hpx (by simpa using hpa)
      · exact he

/-- C8: a partial update on a job the user owns succeeds, stores the row
obtained by applying exactly the present fields, and leaves every absent
field — and every field outside the update schema (`id`, `user_id`,
`resume_drive_link`, `ai_analysis`, `created_at`) — at its previous
value. -/
theorem update_job_partial_fields (db : List JobApplication) (u jid : Nat)
    (upd : JobUpdate) (j : JobApplication)
    (hmem : j ∈ db) (hid : j.id = jid) (hown : j.user_id = u)
    (hnodup : (db.map JobApplication.id).Nodup) :
    (update_job db u jid upd).1 = .ok (applyUpdate j upd) ∧
    applyUpdate j upd ∈ (update_job db u jid upd).2 ∧
    (upd.company_name = none → (applyUpdate j upd).company_name = j.company_name) ∧
    (∀ v, upd.company_name = some v → (applyUpdate j upd).company_name = v) ∧
    (upd.job_title = none → (applyUpdate j upd).job_title = j.job_title) ∧
    (∀ v, upd.job_title = some v → (applyUpdate j upd).job_title = v) ∧
    (upd.job_description = none → (applyUpdate j upd).job_description = j.job_description) ∧
    (∀ v, upd.job_description = some v → (applyUpdate j upd).job_description = v) ∧
    (upd.user_notes = none → (applyUpdate j upd).user_notes = j.user_notes) ∧
    (∀ v, upd.user_notes = some v → (applyUpdate j upd).user_notes = v) ∧
    (upd.status = none → (applyUpdate j upd).status = j.status) ∧
    (∀ v, upd.status = some v → (applyUpdate j upd).status = v) ∧
    (applyUpdate j upd).id = j.id ∧
    (applyUpdate j upd).user_id = j.user_id ∧
    (applyUpdate j upd).resume_drive_link = j.resume_drive_link ∧
    (applyUpdate j upd).ai_analysis = j.ai_analysis ∧
    (applyUpdate j upd).created_at = j.created_at := by
  have hf := findOwnedJob_some_of_owner db u jid j hmem hid hown hnodup
  refine ⟨?_, ?_, ?_, ?_, ?_, ?_, ?_, ?_, ?_, ?_, ?_, ?_, rfl, rfl, rfl, rfl, rfl⟩
  · unfold update_job
    rw [hf]
  · have h1 : (update_job db u jid upd).2
        = replaceFirst (fun x => x.id = jid && x.user_id = u) (applyUpdate j upd) db := by
      unfold update_job
      rw [hf]
    rw [h1]
    apply mem_replaceFirst
    exact ⟨j, hmem, by simp [hid, hown]⟩
  · intro h; simp [applyUpdate, h]
  · intro v h; simp [applyUpdate, h]
  · intro h; simp [applyUpdate, h]
  · intro v h; simp [applyUpdate, h]
  · intro h; simp [applyUpdate, h]
  · intro v h; simp [applyUpdate, h]
  · intro h; simp [applyUpdate, h]
  · intro v h; simp [applyUpdate, h]
  · intro h; simp [applyUpdate, h]
  · intro v h; simp [applyUpdate, h]

/-- The stored row for the C8 witness. -/
def storedJob : JobApplication :=
  { id := 3, user_id := 5, company_name := "Acme", job_title := "Dev",
    job_description := "d", resume_drive_link := "l",
    user_notes := some "note", ai_analysis := none, status := "pending",
    created_at := 9 }

/-- The partial update for the C8 witness: only `status` is present. -/
def statusOnlyUpdate : JobUpdate := { status := some "applied" }

/-- C8 witness: updating only `status` on an owned job keeps every other
field, including the untouchable ones, at its previous value. -/
theorem update_job_partial_fields_witness :
    (update_job [storedJob] 5 3 statusOnlyUpdate).1
        = .ok (applyUpdate storedJob statusOnlyUpdate) ∧
    applyUpdate storedJob statusOnlyUpdate ∈ (update_job [storedJob] 5 3 statusOnlyUpdate).2 ∧
    (applyUpdate storedJob statusOnlyUpdate).company_name = storedJob.company_name ∧
    (applyUpdate storedJob statusOnlyUpdate).user_notes = storedJob.user_notes ∧
    (applyUpdate storedJob statusOnlyUpdate).status = "applied" ∧
    (applyUpdate storedJob statusOnlyUpdate).ai_analysis = storedJob.ai_analysis :=
  ⟨(update_job_partial_fields [storedJob] 5 3 statusOnlyUpdate storedJob
      (by simp) rfl rfl (by decide)).1,
   (update_job_partial_fields [storedJob] 5 3 statusOnlyUpdate storedJob
      (by simp) rfl rfl (by decide)).2.1,
   (update_job_partial_fields [storedJob] 5 3 statusOnlyUpdate storedJob
      (by simp) rfl rfl (by decide)).2.2.1 rfl,
   (update_job_partial_fields [storedJob] 5 3 statusOnlyUpdate storedJob
      (by simp) rfl rfl (by decide)).2.2.2.2.2.2.2.2.1 rfl,
   (update_job_partial_fields [storedJob] 5 3 statusOnlyUpdate storedJob
      (by simp) rfl rfl (by decide)).2.2.2.2.2.2.2.2.2.2.2.1 "applied" rfl,
   (update_job_partial_fields [storedJob] 5 3 statusOnlyUpdate storedJob
      (by simp) rfl rfl (by decide)).2.2.2.2.2.2.2.2.2.2.2.2.2.2.2.1⟩

/-! ## Description-extraction tiers (towards C5) -/

/-- Tier 1 as a first-match search: the selector loop returns the cleaned
text of the first selector candidate longer than 100 characters. -/
theorem trySelectors_eq (p : Page) :
    ∀ sels : List String,
      trySelectors p sels
        = ((sels.filterMap p.select_text).find? (fun t => t.length > 100)).map
            JobExtractor.clean_text := by
  intro sels
  induction sels with
  | nil => rfl
  | cons sel rest ih =>
    simp only [trySelectors]
    cases hsel : p.select_text sel with
    | none =>
      simp only [List.filterMap_cons, hsel]
      exact ih
    | some text =>
      simp only [List.filterMap_cons, hsel]
      by_cases hlen : text.length > 100
      · rw [if_pos hlen, List.find?_cons_of_pos _ (by simpa using hlen)]
        rfl
      · rw [if_neg hlen, List.find?_cons_of_neg _ (by simpa using hlen)]
        exact ih

/-- Tier 2 as a first-match search: the div/section loop returns the
cleaned text of the first block whose length lies strictly between 500 and
20000. -/
theorem tryDivs_eq :
    ∀ ts : List String,
      tryDivs ts
        = (ts.find? (fun t => t.length > 500 && t.length < 20000)).map
            JobExtractor.clean_text := by
  intro ts
  induction ts with
  | nil => rfl
  | cons t rest ih =>
    simp only [tryDivs]
    by_cases hc : (t.length > 500 && t.length < 20000 : Bool) = true
    · rw [if_pos (by simpa using hc)]
      rw [List.find?_cons_of_pos (p := fun t => t.length > 500 && t.length < 20000) rest hc]
      rfl
    · have hcb : ¬((t.length > 500 && t.length < 20000 : Bool) = true) := hc
      rw [if_neg (by simpa [Bool.and_eq_true] using hcb)]
      rw [List.find?_cons_of_neg (p := fun t => t.length > 500 && t.length < 20000) rest
        (by simpa using hcb)]
      exact ih

/-- Modelled from the spec: the three-tier description-extraction policy
as the specification states it, amended with the strict 500/20000 bounds
the code actually enforces — first selector candidate over 100 characters,
else first div/section block strictly between 500 and 20000 characters,
else the body text when over 100 characters, else nothing. -/
def spec_description (p : Page) : Option String :=
  match (description_selectors.filterMap p.select_text).find? (fun t => t.length > 100) with
  | some t => some (JobExtractor.clean_text t)
  | none =>
    match p.div_texts.find? (fun t => t.length > 500 && t.length < 20000) with
    | some t => some (JobExtractor.clean_text t)
    | none =>
      match p.body_text with
      | some t => if t.length > 100 then some (JobExtractor.clean_text t) else none
      | none => none

/-- C5 (amended): `_extract_job_description` implements exactly the
three-tier policy of `spec_description` (strict 500/20000 bounds), and
when every tier is exhausted `extract` fails with the extraction error. -/
theorem extract_description_matches_spec (p : Page) :
    JobExtractor.extract_job_description p = (spec_description p).getD "" ∧
    (spec_description p = none →
      JobExtractor.extract_description p = .error .extractionError) := by
  have h1 : JobExtractor.extract_job_description p = (spec_description p).getD "" := by
    unfold JobExtractor.extract_job_description spec_description
    rw [trySelectors_eq, tryDivs_eq]
    cases (description_selectors.filterMap p.select_text).find? (fun t => t.length > 100) with
    | some t => rfl
    | none =>
      cases p.div_texts.find? (fun t => t.length > 500 && t.length < 20000) with
      | some t => rfl
      | none =>
        cases p.body_text with
        | some t =>
          show (if t.length > 100 then JobExtractor.clean_text t else "")
              = (if t.length > 100 then some (JobExtractor.clean_text t) else none).getD ""
          by_cases hlen : t.length > 100
          · rw [if_pos hlen, if_pos hlen]
            rfl
          · rw [if_neg hlen, if_neg hlen]
            rfl
        | none => rfl
  refine ⟨h1, ?_⟩
  intro hnone
  unfold JobExtractor.extract_description
  rw [h1, hnone]
  rfl

/-- A page whose only content is a single 500-character div, for the C5
boundary counterexample and the amended-claim witness. -/
def boundaryPage : Page :=
  { select_text := fun _ => none,
    div_texts := [String.mk (List.replicate 500 'a')],
    body_text := none }

set_option maxRecDepth 10000 in
/-- C5 counterexample: the claim reads tier 2 as accepting a div whose
text length falls in the range 500–20000; on a page whose single div text
has length exactly 500 (and no other tier applies, and cleaning would not
erase the text), the code accepts nothing and `extract` raises the
extraction error instead of returning that div. -/
theorem extract_description_boundary_counterexample :
    (String.mk (List.replicate 500 'a')).length = 500 ∧
    boundaryPage.div_texts = [String.mk (List.replicate 500 'a')] ∧
    trySelectors boundaryPage description_selectors = none ∧
    boundaryPage.body_text = none ∧
    JobExtractor.clean_text (String.mk (List.replicate 500 'a')) ≠ "" ∧
    JobExtractor.extract_job_description boundaryPage = "" ∧
    JobExtractor.extract_description boundaryPage = .error .extractionError := by
  refine ⟨by decide, rfl, rfl, rfl, by decide, rfl, rfl⟩

set_option maxRecDepth 10000 in
/-- C5 witness (amended claim): on the boundary page every tier is
exhausted under the strict bounds, and the code agrees with the spec-side
policy, failing with the extraction error. -/
theorem extract_description_matches_spec_witness :
    JobExtractor.extract_job_description boundaryPage
        = (spec_description boundaryPage).getD "" ∧
    JobExtractor.extract_description boundaryPage = .error .extractionError :=
  ⟨(extract_description_matches_spec boundaryPage).1,
   (extract_description_matches_spec boundaryPage).2 rfl⟩
